import Mathlib

/-!
Verification of the discv4 UDP transport (`p2p/discover/v4_udp.go`).

The file shallowly embeds the packet-verification gates, the Findnode
handler's Neighbors chunking loop, the reply-matcher dispatcher loop, the
`findnode` client accumulation, and `Resolve`, and proves the spec's claims
about them.

Conventions of the embedding:
- Times and durations are `Int` nanoseconds (Go `time.Time`/`time.Duration`
  arithmetic), so the clock may jump backwards.
- Node IDs, IPs, ports and packet payloads are abstracted to `Nat`; the code
  never inspects their structure beyond equality (`net.IP.Equal` is modelled
  by equality on the abstract IP value).
- Database reads (`LastPongReceived`) and external-module checks
  (`netutil.CheckRelayIP`, `v4wire.Expired`) are passed in as values or
  functions, since those modules are collaborators of this file.
- Go's `container/list` semantics matter: `List.Remove(e)` sets `e.next`,
  `e.prev` and `e.list` to nil, so a loop of the shape
  `for el := plist.Front(); el != nil; el = el.Next()` that removes the
  current element terminates right after the removal (`el.Next()` is nil
  once `el.list` is nil).  The dispatcher loops in `v4_udp.go` use exactly
  this shape, and the embedding reproduces the resulting early stop.
-/

namespace Discv4

/-- Constant `respTimeout = 750 * time.Millisecond` in nanoseconds (v4_udp.go). -/
def respTimeout : Int := 750000000

/-- Constant `bondExpiration = 24 * time.Hour` in nanoseconds (v4_udp.go). -/
def bondExpiration : Int := 86400000000000

/-- Constant `maxPacketSize = 1280` (v4_udp.go): discovery packets are defined to be
no larger than 1280 bytes; larger packets are cut and fail the hash check. -/
def maxPacketSize : Nat := 1280

/-- Modelled from the spec: `v4wire.MaxNeighbors = 12`, the maximum number of
node entries packed into one Neighbors datagram (wire-codec module). -/
def MaxNeighbors : Nat := 12

/-- Modelled from the spec: `bucketSize` k = 16, the k-bucket capacity
(routing-table module). -/
def bucketSize : Nat := 16

/-- The error values of v4_udp.go (`errExpired`, `errUnknownNode`, ...). -/
inductive V4Error where
  | errExpired
  | errUnsolicitedReply
  | errUnknownNode
  | errTimeout
  | errClockWarp
  | errClosed
  | errLowPort
deriving DecidableEq, Repr

/-- Modelled from the spec: `v4wire.Expired` (wire-codec module) — an
expiration timestamp is valid iff `now ≤ expiration + 10s` drift tolerance. -/
def expiredTS (now exp : Int) : Bool := decide (exp + 10000000000 < now)

/-- Function `checkBond` (v4_udp.go): the sender has a recent enough endpoint proof
iff `time.Since(db.LastPongReceived(id, ip)) < bondExpiration`.  `lastPong`
is the database value for the sender's (node-id, IP); the zero time stands
for "no pong recorded". -/
def checkBond (now lastPong : Int) : Bool := decide (now - lastPong < bondExpiration)

/-- Function `verifyFindnode` (v4_udp.go): reject expired packets with `errExpired`,
then unbonded senders with `errUnknownNode`; otherwise accept.  `exp` is the
packet's expiration field, `lastPong` the database's last-pong time for the
sender. -/
def verifyFindnode (now exp lastPong : Int) : Option V4Error :=
  if expiredTS now exp then some .errExpired
  else if !checkBond now lastPong then some .errUnknownNode
  else none

/-- Function `verifyENRRequest` (v4_udp.go): same gate as `verifyFindnode`. -/
def verifyENRRequest (now exp lastPong : Int) : Option V4Error :=
  if expiredTS now exp then some .errExpired
  else if !checkBond now lastPong then some .errUnknownNode
  else none

/-- A routing-table entry as seen by `handleFindnode`: the node (abstracted
to its RPC encoding `nid`) together with the outcome of
`netutil.CheckRelayIP(from.IP, n.IP()) == nil` for the requesting address
(the netutil module is a collaborator, so the check's outcome is data). -/
structure TabNode where
  nid : Nat
  relayOK : Bool
deriving DecidableEq, Repr

/-- One iteration of the append in `handleFindnode` (v4_udp.go): the entry
joins the pending packet iff `netutil.CheckRelayIP(from.IP, n.IP()) == nil`. -/
def appendFiltered (cur : List Nat) (n : TabNode) : List Nat :=
  if n.relayOK then cur ++ [n.nid] else cur

/-- The chunking loop of `handleFindnode` (v4_udp.go): walk the closest
entries, append each entry passing the relay-IP check to the pending packet
`cur`; whenever `cur` reaches `MaxNeighbors` send it and start a fresh one;
after the loop send the remainder if it is nonempty or nothing was sent yet.
Returns the list of sent Neighbors datagrams (each a list of node
encodings), in order. -/
def sendNeighborsLoop : List TabNode → List Nat → List (List Nat) → Bool → List (List Nat)
  | [], cur, acc, sent => if 0 < cur.length ∨ sent = false then acc ++ [cur] else acc
  | n :: rest, cur, acc, sent =>
    if (appendFiltered cur n).length = MaxNeighbors then
      sendNeighborsLoop rest [] (acc ++ [appendFiltered cur n]) true
    else sendNeighborsLoop rest (appendFiltered cur n) acc sent

/-- Function `handleFindnode` (v4_udp.go), as a function from the closest entries
returned by `tab.findnodeByID(target, bucketSize, true)` to the sent
Neighbors datagrams. -/
def handleFindnode (closest : List TabNode) : List (List Nat) :=
  sendNeighborsLoop closest [] [] false

/-- Function `handlePacket` (v4_udp.go) for a Findnode packet: the handler runs only
when `preverify` returns nil, so the sent datagrams are `handleFindnode`'s
if verification passes and none otherwise. -/
def findnodePacketResponse (now exp lastPong : Int) (closest : List TabNode) : List (List Nat) :=
  match verifyFindnode now exp lastPong with
  | some _ => []
  | none => handleFindnode closest

/-- Function `handlePacket` (v4_udp.go) for an ENRRequest packet: `handleENRRequest`
sends exactly one ENRResponse datagram, and only runs when `preverify`
returns nil.  Returns the number of ENRResponse datagrams sent. -/
def enrRequestPacketResponse (now exp lastPong : Int) : Nat :=
  match verifyENRRequest now exp lastPong with
  | some _ => 0
  | none => 1

/-- Type `replyMatcher` (v4_udp.go): a pending reply.  `mid` identifies the
matcher (Go uses pointer identity).  The callback takes the reply packet's
payload and returns `(matched, requestDone)`.  `fromID` is stored but — as
in the source — never compared by the dispatcher. -/
structure replyMatcher where
  mid : Nat
  fromID : Nat
  ip : Nat
  port : Nat
  ptype : Nat
  deadline : Int
  callback : Nat → Bool × Bool
  reply : Option Nat

/-- Type `reply` (v4_udp.go): a decoded reply packet handed to the dispatcher.
`ptype` is `data.Kind()`. -/
structure reply where
  fromID : Nat
  ip : Nat
  port : Nat
  ptype : Nat
  data : Nat

/-- The match condition of the `gotreply` case of `loop` (v4_udp.go):
`p.ptype == r.data.Kind() && p.ip.Equal(r.ip) && p.port == r.port`.
The sender's node id is not part of the condition. -/
def matchFields (p : replyMatcher) (r : reply) : Bool :=
  p.ptype == r.ptype && p.ip == r.ip && p.port == r.port

/-- The `gotreply` case of `loop` (v4_udp.go): walk the pending list front
to back; for a matcher with matching fields invoke its callback, or the
result into `matched`, store the reply, and if the callback reports
`requestDone` deliver nil on its channel and `plist.Remove` it — which, by
`container/list` semantics, nils the element's links so the walk stops
there.  Returns the new pending list, the accumulated `matched` flag and
the ids of removed matchers (each delivered nil). -/
def dispatchReply (r : reply) : List replyMatcher → List replyMatcher × Bool × List Nat
  | [] => ([], false, [])
  | p :: rest =>
    if matchFields p r then
      if (p.callback r.data).2 then
        (rest, (p.callback r.data).1, [p.mid])
      else
        ({ p with reply := some r.data } :: (dispatchReply r rest).1,
         (p.callback r.data).1 || (dispatchReply r rest).2.1,
         (dispatchReply r rest).2.2)
    else
      (p :: (dispatchReply r rest).1,
       (dispatchReply r rest).2.1,
       (dispatchReply r rest).2.2)

/-- The matchers whose callbacks the `gotreply` walk actually invokes: the
field-matching matchers front to back, up to and including the first one
whose callback reports `requestDone` (the walk stops after removing it). -/
def invokedMatchers (r : reply) : List replyMatcher → List replyMatcher
  | [] => []
  | p :: rest =>
    if matchFields p r then
      if (p.callback r.data).2 then [p]
      else p :: invokedMatchers r rest
    else invokedMatchers r rest

/-- Function `handleReply` (v4_udp.go): hands the reply to the dispatcher and reports
its `matched` flag; after close (`closeCtx.Done()`) it returns false
without dispatching. -/
def handleReply (closed : Bool) (r : reply) (plist : List replyMatcher) : Bool :=
  if closed then false else (dispatchReply r plist).2.1

/-- The timer-fire case of `loop` (v4_udp.go): notify and remove matchers
whose deadline is in the past (`!now.Before(p.deadline)`).  Because
`plist.Remove` stops the walk (container/list), at most the first expired
matcher is removed per tick.  Returns the new list and the removed ids
(each delivered `errTimeout`). -/
def removeFirstExpired (now : Int) : List replyMatcher → List replyMatcher × List Nat
  | [] => ([], [])
  | p :: rest =>
    if p.deadline ≤ now then (rest, [p.mid])
    else
      (p :: (removeFirstExpired now rest).1, (removeFirstExpired now rest).2)

/-- The dispatcher state of `loop` (v4_udp.go): the pending list, whether
the transport is closed, the matcher the timeout timer was last armed for
(`nextTimeout`, identified by id; `none` when stopped), and the log of
values delivered on matcher result channels (`none` stands for nil). -/
structure DispState where
  plist : List replyMatcher
  closed : Bool
  nextTimeout : Option Nat
  delivered : List (Nat × Option V4Error)

/-- The dispatcher's initial state. -/
def initState : DispState := ⟨[], false, none, []⟩

/-- The events serialized by `loop` and its timer goroutine (v4_udp.go):
receiving a matcher from `addReplyMatcher` (a `pending` call), receiving on
`gotreply` (a `handleReply` call), the timeout timer firing, a
`resetTimeout` run, and `closeCtx` being cancelled.  An `add` after close
models both the `pending` fast path and the close-time drain of the
`addReplyMatcher` channel, which deliver `errClosed` synchronously. -/
inductive Ev where
  | add (m : replyMatcher) (now : Int)
  | gotreply (r : reply)
  | tick (now : Int)
  | reset (now : Int)
  | close

/-- One dispatcher step (v4_udp.go `loop` and its timer goroutine), with
`RT = t.replyTimeout`:
- `add`: set `deadline = now + RT` and push to the back of the list; after
  close, deliver `errClosed` instead.
- `gotreply`: run the dispatch walk; removed matchers got nil.
- `tick`: clear `nextTimeout`, remove the first expired matcher and deliver
  `errTimeout` to it.
- `reset` (`resetTimeout`): skip when the list is empty or the timer is
  already armed for the front matcher; else, if the front deadline is less
  than `2*RT` away rearm for it; otherwise deliver `errClockWarp` to the
  front matcher and remove it (the walk stops after the removal, leaving
  the timer stopped).
- `close`: deliver `errClosed` to every pending matcher and clear the list. -/
def step (RT : Int) : Ev → DispState → DispState
  | .add m now, s =>
    if s.closed then { s with delivered := s.delivered ++ [(m.mid, some .errClosed)] }
    else { s with plist := s.plist ++ [{ m with deadline := now + RT }] }
  | .gotreply r, s =>
    if s.closed then s
    else
      { s with
        plist := (dispatchReply r s.plist).1,
        delivered := s.delivered ++ (dispatchReply r s.plist).2.2.map (fun i => (i, none)) }
  | .tick now, s =>
    if s.closed then s
    else
      { s with
        plist := (removeFirstExpired now s.plist).1,
        nextTimeout := none,
        delivered := s.delivered ++
          (removeFirstExpired now s.plist).2.map (fun i => (i, some .errTimeout)) }
  | .reset now, s =>
    if s.closed then s
    else
      match s.plist with
      | [] => s
      | m :: rest =>
        if s.nextTimeout = some m.mid then s
        else if m.deadline - now < 2 * RT then { s with nextTimeout := some m.mid }
        else
          { s with
            plist := rest,
            nextTimeout := none,
            delivered := s.delivered ++ [(m.mid, some .errClockWarp)] }
  | .close, s =>
    if s.closed then s
    else
      { s with
        plist := [],
        closed := true,
        delivered := s.delivered ++ s.plist.map (fun m => (m.mid, some .errClosed)) }

/-- Run the dispatcher over a sequence of events. -/
def run (RT : Int) : List Ev → DispState → DispState
  | [], s => s
  | e :: evs, s => run RT evs (step RT e s)

/-- The ids of the matchers submitted by `pending` calls in a trace. -/
def addedIds : List Ev → List Nat
  | [] => []
  | .add m _ :: evs => m.mid :: addedIds evs
  | .gotreply _ :: evs => addedIds evs
  | .tick _ :: evs => addedIds evs
  | .reset _ :: evs => addedIds evs
  | .close :: evs => addedIds evs

/-- The values a matcher's result channel may carry: nil (completion),
`errTimeout`, `errClosed`, or `errClockWarp`. -/
def allowedValue (v : Option V4Error) : Prop :=
  v = none ∨ v = some .errTimeout ∨ v = some .errClosed ∨ v = some .errClockWarp

/-- The accumulator of the `findnode` reply callback (v4_udp.go): the
running count `nreceived` of node entries seen and the nodes that passed
`nodeFromRPC`. -/
structure findnodeAcc where
  nreceived : Nat
  nodes : List Nat
deriving DecidableEq, Repr

/-- One entry of the `findnode` reply callback's inner loop (v4_udp.go):
`nreceived++`, and append the node if `nodeFromRPC` accepts it (`f` is
`nodeFromRPC`, returning `none` for any of its rejections). -/
def nodeStep (f : Nat → Option Nat) (a : findnodeAcc) (rn : Nat) : findnodeAcc :=
  { nreceived := a.nreceived + 1,
    nodes := match f rn with
             | some n => a.nodes ++ [n]
             | none => a.nodes }

/-- The body of the `findnode` reply callback (v4_udp.go) over one Neighbors
packet: fold `nodeStep` over the packet's node entries. -/
def nodesFold (f : Nat → Option Nat) (acc : findnodeAcc) (rns : List Nat) : findnodeAcc :=
  rns.foldl (nodeStep f) acc

/-- The life of the `findnode` reply matcher (v4_udp.go) over the matching
Neighbors packets that arrive before its deadline: each packet is folded
into the accumulator, the callback returns
`(true, nreceived >= bucketSize)`, and the matcher is removed once
`requestDone`.  Returns the final accumulator, the last processed reply
(`rm.reply`) and whether the matcher completed (errc got nil) rather than
timed out (errc got `errTimeout`). -/
def runFindnodeMatcher (f : Nat → Option Nat) :
    List (List Nat) → findnodeAcc → Option (List Nat) → findnodeAcc × Option (List Nat) × Bool
  | [], acc, last => (acc, last, false)
  | r :: rest, acc, _ =>
    if bucketSize ≤ (nodesFold f acc r).nreceived then (nodesFold f acc r, some r, true)
    else runFindnodeMatcher f rest (nodesFold f acc r) (some r)

/-- Function `findnode` (v4_udp.go), given the matching Neighbors replies received
before the timeout: the nodes accumulated by the matcher, and the error the
caller sees — nil on completion, and `errTimeout` suppressed
(`if errors.Is(err, errTimeout) && rm.reply != nil`) when at least one
reply was received. -/
def findnode (f : Nat → Option Nat) (replies : List (List Nat)) : List Nat × Option V4Error :=
  let res := runFindnodeMatcher f replies ⟨0, []⟩ none
  let err : Option V4Error := if res.2.2 then none else some .errTimeout
  (res.1.nodes, if err == some .errTimeout && res.2.1.isSome then none else err)

/-- A node record as `Resolve` consumes it: id, ENR sequence number, and
whether an secp256k1 key can be loaded from the record. -/
structure RNode where
  nid : Nat
  seq : Nat
  hasKey : Bool
deriving DecidableEq, Repr

/-- The collaborators of `Resolve` (v4_udp.go): `RequestENR` (returning
`none` on any error), `tab.getNode`, and the result of `LookupPubkey` on
the node's key. -/
structure ResolveEnv where
  requestENR : RNode → Option RNode
  getNode : Nat → Option RNode
  lookupResult : List RNode

/-- The final loop of `Resolve` (v4_udp.go): over the lookup result, for
each node with the wanted id try `RequestENR` and return the first
success. -/
def lookupENRLoop (env : ResolveEnv) (nid : Nat) : List RNode → Option RNode
  | [] => none
  | rn :: rest =>
    if rn.nid == nid then
      match env.requestENR rn with
      | some rn1 => some rn1
      | none => lookupENRLoop env nid rest
    else lookupENRLoop env nid rest

/-- The tail of `Resolve` (v4_udp.go) after the direct attempts: return `n`
if no key loads, else run the lookup loop and fall back to `n`. -/
def resolveViaLookup (env : ResolveEnv) (n : RNode) : RNode :=
  if !n.hasKey then n
  else
    match lookupENRLoop env n.nid env.lookupResult with
    | some rn1 => rn1
    | none => n

/-- Function `Resolve` (v4_udp.go): try `RequestENR` directly; if the table holds a
record with the same id and a strictly newer sequence number, switch to it
and try `RequestENR` again; otherwise fall through to the DHT lookup.  The
function is total: it always returns a node. -/
def Resolve (env : ResolveEnv) (n : RNode) : RNode :=
  match env.requestENR n with
  | some rn => rn
  | none =>
    match env.getNode n.nid with
    | some intable =>
      if n.seq < intable.seq then
        match env.requestENR intable with
        | some rn => rn
        | none => resolveViaLookup env intable
      else resolveViaLookup env n
    | none => resolveViaLookup env n

/-! ## Lemmas about the Findnode handler -/

theorem appendFiltered_length_le (cur : List Nat) (n : TabNode) :
    (appendFiltered cur n).length ≤ cur.length + 1 := by
  unfold appendFiltered
  split <;> simp

theorem sendNeighborsLoop_length_le (ns : List TabNode) :
    ∀ (cur : List Nat) (acc : List (List Nat)) (sent : Bool),
      (sendNeighborsLoop ns cur acc sent).length
        ≤ acc.length + 1 + (cur.length + ns.length) / MaxNeighbors := by
  induction ns with
  | nil =>
    intro cur acc sent
    simp only [sendNeighborsLoop, MaxNeighbors, List.length_nil]
    split
    all_goals simp
    all_goals omega
  | cons n rest ih =>
    intro cur acc sent
    simp only [sendNeighborsLoop, MaxNeighbors, List.length_cons]
    have hle := appendFiltered_length_le cur n
    split
    · next hfull =>
      have h2 := ih [] (acc ++ [appendFiltered cur n]) true
      simp only [List.length_append, List.length_cons, List.length_nil, MaxNeighbors] at h2
      omega
    · next hfull =>
      have h2 := ih (appendFiltered cur n) acc sent
      simp only [MaxNeighbors] at h2
      omega

theorem sendNeighborsLoop_chunks_le (ns : List TabNode) :
    ∀ (cur : List Nat) (acc : List (List Nat)) (sent : Bool),
      cur.length < MaxNeighbors →
      (∀ c ∈ acc, c.length ≤ MaxNeighbors) →
      ∀ c ∈ sendNeighborsLoop ns cur acc sent, c.length ≤ MaxNeighbors := by
  induction ns with
  | nil =>
    intro cur acc sent hcur hacc c hc
    simp only [sendNeighborsLoop] at hc
    split at hc
    · rcases List.mem_append.1 hc with h | h
      · exact hacc c h
      · simp only [List.mem_singleton] at h
        subst h
        omega
    · exact hacc c hc
  | cons n rest ih =>
    intro cur acc sent hcur hacc c hc
    simp only [sendNeighborsLoop] at hc
    have hle := appendFiltered_length_le cur n
    split at hc
    · next hfull =>
      refine ih [] (acc ++ [appendFiltered cur n]) true ?_ ?_ c hc
      · simp [MaxNeighbors]
      · intro d hd
        rcases List.mem_append.1 hd with h | h
        · exact hacc d h
        · simp only [List.mem_singleton] at h
          subst h
          omega
    · next hfull =>
      exact ih (appendFiltered cur n) acc sent (by omega) hacc c hc

theorem sendNeighborsLoop_pos (ns : List TabNode) :
    ∀ (cur : List Nat) (acc : List (List Nat)) (sent : Bool),
      (sent = true → 0 < acc.length) → 0 < (sendNeighborsLoop ns cur acc sent).length := by
  induction ns with
  | nil =>
    intro cur acc sent hs
    simp only [sendNeighborsLoop]
    split
    · simp
    · next hcond =>
      push_neg at hcond
      exact hs (by simpa using hcond.2)
  | cons n rest ih =>
    intro cur acc sent hs
    simp only [sendNeighborsLoop]
    split
    · exact ih [] (acc ++ [appendFiltered cur n]) true (fun _ => by simp)
    · exact ih (appendFiltered cur n) acc sent hs

theorem sendNeighborsLoop_all_filtered (ns : List TabNode) :
    (∀ n ∈ ns, n.relayOK = false) →
    ∀ (acc : List (List Nat)) (sent : Bool),
      sendNeighborsLoop ns [] acc sent = if sent then acc else acc ++ [[]] := by
  induction ns with
  | nil =>
    intro _ acc sent
    simp only [sendNeighborsLoop]
    cases sent <;> simp
  | cons n rest ih =>
    intro h acc sent
    have hn : n.relayOK = false := h n (.head _)
    simp only [sendNeighborsLoop, appendFiltered, hn, Bool.false_eq_true, if_false]
    rw [if_neg (by simp [MaxNeighbors])]
    exact ih (fun m hm => h m (.tail _ hm)) acc sent

/-! ## Claim theorems: bond gating and the Findnode handler -/

/-- C1 (corrected, amended): for an incoming Findnode or ENRRequest whose
sender has no pong recorded within `bondExpiration` (checkBond false),
`preverify` returns `errUnknownNode` provided the packet is not expired
(an expired packet is rejected earlier with `errExpired`); in either case
the handler does not run, so no Neighbors or ENRResponse datagram is sent. -/
theorem findnode_enrrequest_bond_gate (now exp lastPong : Int) (closest : List TabNode)
    (hbond : checkBond now lastPong = false) :
    (expiredTS now exp = false →
      verifyFindnode now exp lastPong = some .errUnknownNode ∧
      verifyENRRequest now exp lastPong = some .errUnknownNode) ∧
    findnodePacketResponse now exp lastPong closest = [] ∧
    enrRequestPacketResponse now exp lastPong = 0 := by
  by_cases hexp : expiredTS now exp <;>
    simp [verifyFindnode, verifyENRRequest, findnodePacketResponse,
      enrRequestPacketResponse, hbond, hexp]

theorem findnode_enrrequest_bond_gate_witness :
    checkBond 200000000000000 0 = false ∧
    ((expiredTS 200000000000000 200000000000000 = false →
      verifyFindnode 200000000000000 200000000000000 0 = some .errUnknownNode ∧
      verifyENRRequest 200000000000000 200000000000000 0 = some .errUnknownNode) ∧
     findnodePacketResponse 200000000000000 200000000000000 0 [] = [] ∧
     enrRequestPacketResponse 200000000000000 200000000000000 0 = 0) :=
  ⟨by decide, findnode_enrrequest_bond_gate 200000000000000 200000000000000 0 [] (by decide)⟩

/-- C1 counterexample: an expired Findnode from an unbonded sender (no pong
ever recorded) is rejected by `preverify` with `errExpired`, not
`errUnknownNode` as the claim states.  Input: `now` = 200000000000000 ns
(≈ 2.3 days), expiration 0, last pong at the zero time. -/
theorem findnode_bond_gate_cx :
    checkBond 200000000000000 0 = false ∧
    verifyFindnode 200000000000000 0 0 = some .errExpired ∧
    ¬verifyFindnode 200000000000000 0 0 = some .errUnknownNode := by
  decide

/-- C2 (confirmed): for a single verified inbound Findnode, given that
`tab.findnodeByID(target, bucketSize, true)` returns at most `bucketSize`
= 16 entries, `handleFindnode` sends at most ⌈16/12⌉ = 2 Neighbors
datagrams, each carrying at most `MaxNeighbors` = 12 nodes, so the outbound
traffic is bounded by 2 datagrams of at most `maxPacketSize` = 1280 bytes. -/
theorem handleFindnode_amplification_bound (closest : List TabNode)
    (h : closest.length ≤ bucketSize) :
    (handleFindnode closest).length ≤ 2 ∧
    (∀ c ∈ handleFindnode closest, c.length ≤ MaxNeighbors) ∧
    (handleFindnode closest).length * maxPacketSize ≤ 2 * maxPacketSize := by
  have h1 : (handleFindnode closest).length ≤ 2 := by
    have hlen := sendNeighborsLoop_length_le closest [] [] false
    simp only [handleFindnode, List.length_nil, MaxNeighbors, bucketSize] at hlen h ⊢
    omega
  refine ⟨h1, ?_, Nat.mul_le_mul_right _ h1⟩
  exact sendNeighborsLoop_chunks_le closest [] [] false (by simp [MaxNeighbors]) (by simp)

theorem handleFindnode_amplification_bound_witness :
    ((List.range 16).map (fun i => TabNode.mk i true)).length ≤ bucketSize ∧
    ((handleFindnode ((List.range 16).map (fun i => TabNode.mk i true))).length ≤ 2 ∧
     (∀ c ∈ handleFindnode ((List.range 16).map (fun i => TabNode.mk i true)),
        c.length ≤ MaxNeighbors) ∧
     (handleFindnode ((List.range 16).map (fun i => TabNode.mk i true))).length * maxPacketSize
        ≤ 2 * maxPacketSize) :=
  ⟨by decide, handleFindnode_amplification_bound _ (by decide)⟩

/-- C10 (confirmed): a verified inbound Findnode always gets at least one
Neighbors datagram in response; when the table yields no entries or the
relay-IP check filters out every entry, a single Neighbors datagram with an
empty node list is sent. -/
theorem handleFindnode_always_replies (closest : List TabNode) :
    0 < (handleFindnode closest).length ∧
    ((∀ n ∈ closest, n.relayOK = false) → handleFindnode closest = [[]]) := by
  constructor
  · exact sendNeighborsLoop_pos closest [] [] false (by simp)
  · intro h
    simpa using sendNeighborsLoop_all_filtered closest h [] false

theorem handleFindnode_always_replies_witness :
    0 < (handleFindnode [TabNode.mk 5 false]).length ∧
    handleFindnode [TabNode.mk 5 false] = [[]] :=
  ⟨(handleFindnode_always_replies [TabNode.mk 5 false]).1,
   (handleFindnode_always_replies [TabNode.mk 5 false]).2 (by decide)⟩

/-! ## Claim theorems: reply dispatch (`handleReply`) -/

/-- C3 (corrected, amended): `handleReply` makes the dispatcher invoke the
callbacks of the field-matching matchers front to back, stopping after the
first one that reports `requestDone` (which is removed); it returns true
iff at least one of the *invoked* callbacks returned `matched = true`.
Matchers behind the stopping point are not consulted, because
`plist.Remove` ends the list walk. -/
theorem handleReply_invoked_matchers (r : reply) (l : List replyMatcher) :
    handleReply false r l = (invokedMatchers r l).any (fun p => (p.callback r.data).1) := by
  simp only [handleReply, if_false, Bool.false_eq_true]
  induction l with
  | nil => rfl
  | cons p rest ih =>
    simp only [dispatchReply, invokedMatchers]
    cases hm : matchFields p r
    · simpa [hm] using ih
    · cases hd : (p.callback r.data).2 <;> simp [hd, ih]

/-- The matchers of the C3 counterexample: both match a Pong-kind reply
from (ip 8, port 30303); the first one's callback reports
`(matched = false, requestDone = true)` (no real call site does this, but
`pending` accepts any `replyMatchFunc`), the second one's reports
`(matched = true, requestDone = true)`. -/
def rmFalseDone : replyMatcher :=
  ⟨1, 100, 8, 30303, 2, 0, fun _ => (false, true), none⟩

def rmTrueDone : replyMatcher :=
  ⟨2, 101, 8, 30303, 2, 0, fun _ => (true, true), none⟩

def pongReply : reply := ⟨100, 8, 30303, 2, 77⟩

/-- C3 counterexample: with the two matchers above pending, `handleReply`
returns false although a pending matcher with matching (kind, IP, port)
fields has a callback returning `matched = true` — that callback is never
invoked, because the walk stops when the first matcher is removed. -/
theorem handleReply_dispatch_cx :
    handleReply false pongReply [rmFalseDone, rmTrueDone] = false ∧
    matchFields rmTrueDone pongReply = true ∧
    (rmTrueDone.callback pongReply.data).1 = true ∧
    rmTrueDone ∈ [rmFalseDone, rmTrueDone] :=
  ⟨rfl, rfl, rfl, List.Mem.tail _ (List.Mem.head _)⟩

/-! ## Lemmas about the findnode accumulator -/

theorem nodesFold_nreceived (f : Nat → Option Nat) (rns : List Nat) :
    ∀ acc : findnodeAcc, (nodesFold f acc rns).nreceived = acc.nreceived + rns.length := by
  induction rns with
  | nil => intro acc; rfl
  | cons rn rest ih =>
    intro acc
    have h := ih (nodeStep f acc rn)
    simp only [nodesFold, List.foldl_cons] at h ⊢
    rw [h]
    simp only [nodeStep, List.length_cons]
    omega

theorem nodesFold_nodes_le (f : Nat → Option Nat) (rns : List Nat) :
    ∀ acc : findnodeAcc, acc.nodes.length ≤ acc.nreceived →
      (nodesFold f acc rns).nodes.length ≤ (nodesFold f acc rns).nreceived := by
  induction rns with
  | nil => intro acc h; exact h
  | cons rn rest ih =>
    intro acc h
    have hstep : (nodeStep f acc rn).nodes.length ≤ (nodeStep f acc rn).nreceived := by
      cases hf : f rn <;> simp [nodeStep, hf] <;> omega
    have := ih (nodeStep f acc rn) hstep
    simpa only [nodesFold, List.foldl_cons] using this

theorem runFindnodeMatcher_last_isSome (f : Nat → Option Nat) (replies : List (List Nat)) :
    ∀ (acc : findnodeAcc) (last : Option (List Nat)),
      (last.isSome = true ∨ replies ≠ []) →
      (runFindnodeMatcher f replies acc last).2.1.isSome = true := by
  induction replies with
  | nil =>
    intro acc last h
    rcases h with h | h
    · exact h
    · simp at h
  | cons r rest ih =>
    intro acc last _
    simp only [runFindnodeMatcher]
    split
    · rfl
    · exact ih _ (some r) (Or.inl rfl)

theorem runFindnodeMatcher_nodes_le (f : Nat → Option Nat) (replies : List (List Nat)) :
    ∀ (acc : findnodeAcc) (last : Option (List Nat)),
      acc.nodes.length ≤ acc.nreceived →
      acc.nreceived ≤ bucketSize - 1 →
      (∀ r ∈ replies, r.length ≤ MaxNeighbors) →
      (runFindnodeMatcher f replies acc last).1.nodes.length ≤ bucketSize - 1 + MaxNeighbors := by
  induction replies with
  | nil =>
    intro acc last h1 h2 _
    simp only [runFindnodeMatcher, bucketSize, MaxNeighbors] at h2 ⊢
    omega
  | cons r rest ih =>
    intro acc last h1 h2 hr
    have hrlen : r.length ≤ MaxNeighbors := hr r (.head _)
    have hrec := nodesFold_nreceived f r acc
    have hnod := nodesFold_nodes_le f r acc h1
    simp only [runFindnodeMatcher]
    split
    · next hdone =>
      simp only [bucketSize, MaxNeighbors] at hrlen h2 ⊢
      omega
    · next hdone =>
      refine ih (nodesFold f acc r) (some r) hnod ?_ (fun x hx => hr x (.tail _ hx))
      simp only [bucketSize, MaxNeighbors] at hdone hrlen h2 ⊢
      omega

/-! ## Claim theorems: the findnode client -/

/-- C7 (confirmed): in `findnode`, a timeout from the reply matcher is
suppressed — the call returns the accumulated nodes with a nil error — iff
at least one matching Neighbors reply was received before the timeout
(`rm.reply != nil`); the error is surfaced exactly when no reply at all
arrived. -/
theorem findnode_timeout_suppression (f : Nat → Option Nat) (replies : List (List Nat)) :
    (findnode f replies).2 = none ↔ replies ≠ [] := by
  cases replies with
  | nil => simp [findnode, runFindnodeMatcher]
  | cons r rest =>
    constructor
    · intro _
      simp
    · intro _
      simp only [findnode]
      have hsome :=
        runFindnodeMatcher_last_isSome f (r :: rest) ⟨0, []⟩ none (Or.inr (by simp))
      cases hdone : (runFindnodeMatcher f (r :: rest) ⟨0, []⟩ none).2.2 <;>
        simp [hdone, hsome]

/-- C8 (corrected, amended): `findnode` stops accepting further Neighbors
replies once the cumulative count of received node entries reaches
`bucketSize` = 16, but every entry of the packet that crosses the
threshold is still processed, so the returned list can exceed 16; when
every reply packet carries at most `MaxNeighbors` = 12 node entries (as
conforming senders chunk), the returned list has at most 15 + 12 = 27
nodes. -/
theorem findnode_result_bound (f : Nat → Option Nat) (replies : List (List Nat))
    (h : ∀ r ∈ replies, r.length ≤ MaxNeighbors) :
    (findnode f replies).1.length ≤ bucketSize - 1 + MaxNeighbors := by
  simpa [findnode] using
    runFindnodeMatcher_nodes_le f replies ⟨0, []⟩ none (by decide) (by decide) h

theorem findnode_result_bound_witness :
    (∀ r ∈ [List.range 12, List.range 9], r.length ≤ MaxNeighbors) ∧
    (findnode some [List.range 12, List.range 9]).1.length ≤ bucketSize - 1 + MaxNeighbors :=
  ⟨by decide, findnode_result_bound some [List.range 12, List.range 9] (by decide)⟩

/-- C8 counterexample: a single Neighbors reply carrying 17 valid node
entries makes `findnode` (and hence `FindNode`) return 17 nodes, more than
`bucketSize` = 16, contradicting the claim's "at most 16" bound. -/
theorem findnode_result_bound_cx :
    (findnode some [List.range 17]).1.length = 17 ∧
    bucketSize < (findnode some [List.range 17]).1.length := by
  decide

/-! ## Claim theorems: Resolve -/

theorem lookupENRLoop_none (env : ResolveEnv) (nid : Nat) (l : List RNode)
    (h : ∀ rn ∈ l, rn.nid = nid → env.requestENR rn = none) :
    lookupENRLoop env nid l = none := by
  induction l with
  | nil => rfl
  | cons rn rest ih =>
    simp only [lookupENRLoop]
    cases hbe : (rn.nid == nid)
    · simpa [hbe] using ih (fun x hx => h x (.tail _ hx))
    · have he : rn.nid = nid := by simpa using hbe
      simp only [if_true]
      rw [h rn (.head _) he]
      exact ih (fun x hx => h x (.tail _ hx))

/-- C9 (confirmed): `Resolve` is total — it returns a node for every input —
and when the direct ENR request fails, the table holds no record with the
same id and a strictly newer sequence number, and every ENR request to a
lookup result with the wanted id fails, it returns the input node
unchanged. -/
theorem Resolve_fallback (env : ResolveEnv) (n : RNode)
    (h1 : env.requestENR n = none)
    (h2 : ∀ intable, env.getNode n.nid = some intable → intable.seq ≤ n.seq)
    (h3 : ∀ rn ∈ env.lookupResult, rn.nid = n.nid → env.requestENR rn = none) :
    Resolve env n = n := by
  have hvl : resolveViaLookup env n = n := by
    unfold resolveViaLookup
    cases hk : n.hasKey
    · simp
    · simp only [Bool.not_true, Bool.false_eq_true, if_false]
      rw [lookupENRLoop_none env n.nid env.lookupResult h3]
  cases hg : env.getNode n.nid with
  | none => simp only [Resolve, h1, hg]; exact hvl
  | some intable =>
    have hle := h2 intable hg
    simp only [Resolve, h1, hg]
    rw [if_neg (by omega)]
    exact hvl

def envAllFail : ResolveEnv := ⟨fun _ => none, fun _ => none, []⟩

theorem Resolve_fallback_witness :
    (envAllFail.requestENR ⟨3, 5, true⟩ = none ∧
     (∀ intable, envAllFail.getNode 3 = some intable → intable.seq ≤ 5) ∧
     (∀ rn ∈ envAllFail.lookupResult, rn.nid = 3 → envAllFail.requestENR rn = none)) ∧
    Resolve envAllFail ⟨3, 5, true⟩ = ⟨3, 5, true⟩ :=
  And.intro
    (And.intro rfl
      (And.intro (fun _ h => nomatch h) (fun _ h => nomatch h)))
    (Resolve_fallback envAllFail ⟨3, 5, true⟩ rfl
      (fun _ h => nomatch h) (fun _ h => nomatch h))

/-! ## Lemmas about the dispatcher trace -/

theorem dispatchReply_ids (r : reply) (l : List replyMatcher) :
    ((((dispatchReply r l).1.map (·.mid) : List Nat) : Multiset Nat)
      + ((dispatchReply r l).2.2 : List Nat))
      = ((l.map (·.mid) : List Nat) : Multiset Nat) := by
  induction l with
  | nil => rfl
  | cons p rest ih =>
    simp only [dispatchReply]
    cases hm : matchFields p r
    · simp only [Bool.false_eq_true, if_false, List.map_cons, ← Multiset.cons_coe,
        Multiset.cons_add]
      rw [ih]
    · simp only [if_true]
      cases hd : (p.callback r.data).2
      · simp only [Bool.false_eq_true, if_false, List.map_cons, ← Multiset.cons_coe,
          Multiset.cons_add]
        rw [ih]
      · simp only [if_true, List.map_cons, List.map_nil, ← Multiset.cons_coe,
          Multiset.coe_nil, Multiset.add_cons, Multiset.cons_add, add_zero, zero_add]

theorem removeFirstExpired_ids (now : Int) (l : List replyMatcher) :
    ((((removeFirstExpired now l).1.map (·.mid) : List Nat) : Multiset Nat)
      + ((removeFirstExpired now l).2 : List Nat))
      = ((l.map (·.mid) : List Nat) : Multiset Nat) := by
  induction l with
  | nil => rfl
  | cons p rest ih =>
    simp only [removeFirstExpired]
    split
    · simp only [List.map_cons, List.map_nil, ← Multiset.cons_coe, Multiset.coe_nil,
        Multiset.add_cons, Multiset.cons_add, add_zero, zero_add]
    · simp only [List.map_cons, ← Multiset.cons_coe, Multiset.cons_add]
      rw [ih]

/-- All matcher ids a dispatcher state accounts for, with multiplicity:
those still pending plus those with a delivered result. -/
def stateIds (s : DispState) : Multiset Nat :=
  ((s.plist.map (·.mid) : List Nat) : Multiset Nat) + (s.delivered.map (·.1) : List Nat)

theorem stateIds_step (RT : Int) (e : Ev) (s : DispState) :
    stateIds (step RT e s) = ((addedIds [e] : List Nat) : Multiset Nat) + stateIds s := by
  cases e with
  | add m now =>
    cases hc : s.closed
    · simp only [step, if_neg (show ¬s.closed = true by simp [hc]), stateIds, addedIds,
        List.map_append, List.map_cons, List.map_nil, ← Multiset.coe_add,
        ← Multiset.cons_coe, Multiset.coe_nil, ← Multiset.singleton_add]
      abel
    · simp only [step, if_pos hc, stateIds, addedIds, List.map_append, List.map_cons,
        List.map_nil, ← Multiset.coe_add, ← Multiset.cons_coe, Multiset.coe_nil,
        ← Multiset.singleton_add]
      abel
  | gotreply r =>
    cases hc : s.closed
    · have h := dispatchReply_ids r s.plist
      simp only [step, if_neg (show ¬s.closed = true by simp [hc]), stateIds, addedIds,
        List.map_append, List.map_map, Function.comp_def, List.map_id',
        ← Multiset.coe_add, Multiset.coe_nil]
      rw [← h]
      abel
    · simp only [step, if_pos hc, stateIds, addedIds, Multiset.coe_nil]
      rw [zero_add]
  | tick now =>
    cases hc : s.closed
    · have h := removeFirstExpired_ids now s.plist
      simp only [step, if_neg (show ¬s.closed = true by simp [hc]), stateIds, addedIds,
        List.map_append, List.map_map, Function.comp_def, List.map_id',
        ← Multiset.coe_add, Multiset.coe_nil]
      rw [← h]
      abel
    · simp only [step, if_pos hc, stateIds, addedIds, Multiset.coe_nil]
      rw [zero_add]
  | reset now =>
    cases hc : s.closed
    · cases hp : s.plist with
      | nil =>
        simp only [step, if_neg (show ¬s.closed = true by simp [hc]), hp, stateIds,
          addedIds, Multiset.coe_nil]
        rw [zero_add]
      | cons m rest =>
        by_cases hg : s.nextTimeout = some m.mid
        · simp only [step, if_neg (show ¬s.closed = true by simp [hc]), hp, if_pos hg,
            stateIds, addedIds, Multiset.coe_nil]
          rw [zero_add]
        · by_cases hd : m.deadline - now < 2 * RT
          · simp only [step, if_neg (show ¬s.closed = true by simp [hc]), hp, if_neg hg,
              if_pos hd, stateIds, addedIds, Multiset.coe_nil]
            rw [zero_add]
          · simp only [step, if_neg (show ¬s.closed = true by simp [hc]), hp, if_neg hg,
              if_neg hd, stateIds, addedIds, List.map_append, List.map_cons, List.map_nil,
              ← Multiset.coe_add, ← Multiset.cons_coe, Multiset.coe_nil,
              ← Multiset.singleton_add]
            abel
    · simp only [step, if_pos hc, stateIds, addedIds, Multiset.coe_nil]
      rw [zero_add]
  | close =>
    cases hc : s.closed
    · simp only [step, if_neg (show ¬s.closed = true by simp [hc]), stateIds, addedIds,
        List.map_append, List.map_map, List.map_nil, Function.comp_def,
        ← Multiset.coe_add, Multiset.coe_nil]
      abel
    · simp only [step, if_pos hc, stateIds, addedIds, Multiset.coe_nil]
      rw [zero_add]

theorem stateIds_run (RT : Int) (evs : List Ev) :
    ∀ s : DispState,
      stateIds (run RT evs s) = ((addedIds evs : List Nat) : Multiset Nat) + stateIds s := by
  induction evs with
  | nil => intro s; simp [run, addedIds]
  | cons e evs ih =>
    intro s
    simp only [run]
    rw [ih (step RT e s), stateIds_step]
    cases e <;>
      simp [addedIds, ← Multiset.cons_coe, Multiset.singleton_add, Multiset.cons_add,
        ← add_assoc]

theorem step_delivered_allowed (RT : Int) (e : Ev) (s : DispState) :
    ∀ pr ∈ (step RT e s).delivered, pr ∈ s.delivered ∨ allowedValue pr.2 := by
  intro pr hpr
  cases e with
  | add m now =>
    cases hc : s.closed
    · rw [show step RT (.add m now) s
          = { s with plist := s.plist ++ [{ m with deadline := now + RT }] } by
        simp [step, hc]] at hpr
      exact Or.inl hpr
    · rw [show step RT (.add m now) s
          = { s with delivered := s.delivered ++ [(m.mid, some .errClosed)] } by
        simp [step, hc]] at hpr
      rcases List.mem_append.1 hpr with h | h
      · exact Or.inl h
      · simp only [List.mem_singleton] at h
        subst h
        exact Or.inr (Or.inr (Or.inr (Or.inl rfl)))
  | gotreply r =>
    cases hc : s.closed
    · rw [show step RT (.gotreply r) s
          = { s with plist := (dispatchReply r s.plist).1,
                     delivered := s.delivered
                       ++ (dispatchReply r s.plist).2.2.map (fun i => (i, none)) } by
        simp [step, hc]] at hpr
      rcases List.mem_append.1 hpr with h | h
      · exact Or.inl h
      · rcases List.mem_map.1 h with ⟨i, _, hi⟩
        subst hi
        exact Or.inr (Or.inl rfl)
    · rw [show step RT (.gotreply r) s = s by simp [step, hc]] at hpr
      exact Or.inl hpr
  | tick now =>
    cases hc : s.closed
    · rw [show step RT (.tick now) s
          = { s with plist := (removeFirstExpired now s.plist).1,
                     nextTimeout := none,
                     delivered := s.delivered
                       ++ (removeFirstExpired now s.plist).2.map
                            (fun i => (i, some .errTimeout)) } by
        simp [step, hc]] at hpr
      rcases List.mem_append.1 hpr with h | h
      · exact Or.inl h
      · rcases List.mem_map.1 h with ⟨i, _, hi⟩
        subst hi
        exact Or.inr (Or.inr (Or.inl rfl))
    · rw [show step RT (.tick now) s = s by simp [step, hc]] at hpr
      exact Or.inl hpr
  | reset now =>
    cases hc : s.closed
    · cases hp : s.plist with
      | nil =>
        rw [show step RT (.reset now) s = s by simp [step, hc, hp]] at hpr
        exact Or.inl hpr
      | cons m rest =>
        by_cases hg : s.nextTimeout = some m.mid
        · rw [show step RT (.reset now) s = s by simp [step, hc, hp, hg]] at hpr
          exact Or.inl hpr
        · by_cases hd : m.deadline - now < 2 * RT
          · rw [show step RT (.reset now) s = { s with nextTimeout := some m.mid } by
              simp [step, hc, hp, hg, hd]] at hpr
            exact Or.inl hpr
          · rw [show step RT (.reset now) s
                = { s with plist := rest, nextTimeout := none,
                           delivered := s.delivered ++ [(m.mid, some .errClockWarp)] } by
              simp [step, hc, hp, hg, hd]] at hpr
            rcases List.mem_append.1 hpr with h | h
            · exact Or.inl h
            · simp only [List.mem_singleton] at h
              subst h
              exact Or.inr (Or.inr (Or.inr (Or.inr rfl)))
    · rw [show step RT (.reset now) s = s by simp [step, hc]] at hpr
      exact Or.inl hpr
  | close =>
    cases hc : s.closed
    · rw [show step RT .close s
          = { s with plist := [], closed := true,
                     delivered := s.delivered
                       ++ s.plist.map (fun q => (q.mid, some .errClosed)) } by
        simp [step, hc]] at hpr
      rcases List.mem_append.1 hpr with h | h
      · exact Or.inl h
      · rcases List.mem_map.1 h with ⟨q, _, hq⟩
        subst hq
        exact Or.inr (Or.inr (Or.inr (Or.inl rfl)))
    · rw [show step RT .close s = s by simp [step, hc]] at hpr
      exact Or.inl hpr

theorem run_delivered_allowed (RT : Int) (evs : List Ev) :
    ∀ s : DispState, (∀ pr ∈ s.delivered, allowedValue pr.2) →
      ∀ pr ∈ (run RT evs s).delivered, allowedValue pr.2 := by
  induction evs with
  | nil => intro s h; exact h
  | cons e evs ih =>
    intro s h
    refine ih (step RT e s) ?_
    intro pr hpr
    rcases step_delivered_allowed RT e s pr hpr with h1 | h1
    · exact h pr h1
    · exact h1

/-! ## Claim theorems: matcher lifecycle -/

/-- C4 (confirmed): over any dispatcher trace in which the `pending` calls
submit pairwise-distinct matchers, every submitted matcher is, at the end,
accounted for exactly once — either still pending in the list or with
exactly one value delivered on its result channel — and every delivered
value is one of nil (completion), `errTimeout`, `errClosed`, or
`errClockWarp`. -/
theorem matcher_exactly_one_result (RT : Int) (evs : List Ev)
    (h : (addedIds evs).Nodup) :
    (∀ i ∈ addedIds evs, Multiset.count i (stateIds (run RT evs initState)) = 1) ∧
    (∀ pr ∈ (run RT evs initState).delivered, allowedValue pr.2) := by
  constructor
  · intro i hi
    rw [stateIds_run RT evs initState]
    have h0 : stateIds initState = 0 := rfl
    rw [h0, add_zero, Multiset.coe_count]
    exact List.count_eq_one_of_mem h hi
  · exact run_delivered_allowed RT evs initState (by intro pr hpr; cases hpr)

/-- A completed-style matcher for concrete traces. -/
def mDone : replyMatcher := ⟨1, 9, 8, 30303, 1, 0, fun _ => (true, true), none⟩

theorem matcher_exactly_one_result_witness :
    (addedIds [Ev.add mDone 0, Ev.close]).Nodup ∧
    ((∀ i ∈ addedIds [Ev.add mDone 0, Ev.close],
        Multiset.count i (stateIds (run respTimeout [Ev.add mDone 0, Ev.close] initState)) = 1) ∧
     (∀ pr ∈ (run respTimeout [Ev.add mDone 0, Ev.close] initState).delivered,
        allowedValue pr.2)) :=
  ⟨by decide, matcher_exactly_one_result respTimeout [Ev.add mDone 0, Ev.close] (by decide)⟩

/-- C5 (confirmed): closing the transport delivers `errClosed` to every
matcher still pending at that moment and empties the list; a `pending`
call made after close gets `errClosed` delivered synchronously and is
never enqueued. -/
theorem close_delivers_errClosed (RT : Int) (s : DispState) (m : replyMatcher) (now : Int)
    (h : s.closed = false) :
    (step RT .close s).plist = [] ∧
    (step RT .close s).delivered
      = s.delivered ++ s.plist.map (fun q => (q.mid, some V4Error.errClosed)) ∧
    (step RT .close s).closed = true ∧
    (step RT (.add m now) (step RT .close s)).delivered
      = (step RT .close s).delivered ++ [(m.mid, some V4Error.errClosed)] ∧
    (step RT (.add m now) (step RT .close s)).plist = [] := by
  simp [step, h]

/-- A pending-style matcher for concrete traces. -/
def mWaiting : replyMatcher := ⟨4, 9, 8, 30303, 1, 0, fun _ => (true, false), none⟩

def sOneWaiting : DispState := ⟨[mWaiting], false, none, []⟩

theorem close_delivers_errClosed_witness :
    sOneWaiting.closed = false ∧
    ((step respTimeout .close sOneWaiting).plist = [] ∧
     (step respTimeout .close sOneWaiting).delivered
       = sOneWaiting.delivered
         ++ sOneWaiting.plist.map (fun q => (q.mid, some V4Error.errClosed)) ∧
     (step respTimeout .close sOneWaiting).closed = true ∧
     (step respTimeout (.add mDone 5) (step respTimeout .close sOneWaiting)).delivered
       = (step respTimeout .close sOneWaiting).delivered ++ [(mDone.mid, some V4Error.errClosed)] ∧
     (step respTimeout (.add mDone 5) (step respTimeout .close sOneWaiting)).plist = []) :=
  ⟨rfl, close_delivers_errClosed respTimeout sOneWaiting mDone 5 rfl⟩

/-- C6 (confirmed): when `resetTimeout` runs with the timer not already
armed for the front matcher and finds that matcher's deadline more than
2×replyTimeout in the future (the system clock jumped backward), it removes
that matcher and delivers `errClockWarp` to it, within that single pass. -/
theorem clock_warp_eviction (RT now : Int) (s : DispState) (m : replyMatcher)
    (rest : List replyMatcher)
    (hclosed : s.closed = false) (hplist : s.plist = m :: rest)
    (hguard : s.nextTimeout ≠ some m.mid) (hwarp : 2 * RT < m.deadline - now) :
    (step RT (.reset now) s).plist = rest ∧
    (step RT (.reset now) s).delivered = s.delivered ++ [(m.mid, some V4Error.errClockWarp)] := by
  have hlt : ¬(m.deadline - now < 2 * RT) := by omega
  simp [step, hclosed, hplist, hguard, hlt]

/-- The C6 scenario matcher: inserted at t₀ = 10×replyTimeout, so its
deadline is t₀ + replyTimeout = 11×replyTimeout = 8250000000 ns. -/
def mWarp : replyMatcher := ⟨1, 9, 8, 30303, 2, 8250000000, fun _ => (true, true), none⟩

def sWarp : DispState := ⟨[mWarp], false, none, []⟩

/-- C6 witness: after the clock jumps back by 10×replyTimeout (now = 0),
one `resetTimeout` pass evicts the matcher with `errClockWarp`. -/
theorem clock_warp_eviction_witness :
    sWarp.closed = false ∧ sWarp.plist = [mWarp] ∧
    sWarp.nextTimeout ≠ some mWarp.mid ∧
    2 * respTimeout < mWarp.deadline - 0 ∧
    ((step respTimeout (.reset 0) sWarp).plist = [] ∧
     (step respTimeout (.reset 0) sWarp).delivered
       = sWarp.delivered ++ [(mWarp.mid, some V4Error.errClockWarp)]) :=
  ⟨rfl, rfl, by decide, by decide,
   clock_warp_eviction respTimeout 0 sWarp mWarp [] rfl rfl (by decide) (by decide)⟩

end Discv4
